import Mathlib

/-!
# Verification of `scripts/parse_benchmarks.py`

A shallow embedding of the benchmark-log parsing and reporting pipeline.
Log texts are modelled as `List Char`; Python's `str.find` (returning -1 on
absence), slicing with negative indices, `str.strip(' ')` and `int(s, base)`
are modelled explicitly.  Python's arbitrary-precision integers are `Int`,
and the floating-point `ipc` ratio is modelled as an exact rational.
-/

namespace ParseBenchmarks

/-- First index at or after 0 where `pat` occurs as a contiguous substring of
`s`, mirroring Python's `str.find` (which returns the leftmost match). -/
def findSub : List Char → List Char → Option Nat
  | [], pat => if pat.isPrefixOf ([] : List Char) then some 0 else none
  | c :: rest, pat =>
    if pat.isPrefixOf (c :: rest) then some 0 else (findSub rest pat).map (· + 1)

/-- Python's `str.find(pat)`: the index of the first occurrence, or `-1`. -/
def pyFind (s pat : List Char) : Int :=
  match findSub s pat with
  | some i => (i : Int)
  | none => -1

/-- Clamp a (possibly negative) Python index into `[0, len]`: negative
indices count from the end of the sequence. -/
def pyClampIdx (len : Nat) (i : Int) : Nat :=
  if i < 0 then (i + len).toNat else min i.toNat len

/-- Python slice `s[a:b]` for arbitrary integer endpoints. -/
def pySlice (s : List Char) (a b : Int) : List Char :=
  (s.take (pyClampIdx s.length b)).drop (pyClampIdx s.length a)

/-- Python's `str.strip(' ')`: remove leading and trailing space characters
(only `' '`, not general whitespace). -/
def stripSpaces (s : List Char) : List Char :=
  ((s.dropWhile (· = ' ')).reverse.dropWhile (· = ' ')).reverse

/-- The ASCII whitespace characters stripped by Python's `int()`. -/
def isPyWs (c : Char) : Bool :=
  c = ' ' || c = '\t' || c = '\n' || c = '\r' || c = Char.ofNat 11 || c = Char.ofNat 12

/-- Value of a single digit character in the given base (Python accepts both
letter cases), or `none` if the character is not a digit of that base. -/
def digitValBase (base : Nat) (c : Char) : Option Nat :=
  let v : Option Nat :=
    if '0' ≤ c && c ≤ '9' then some (c.toNat - 48)
    else if 'a' ≤ c && c ≤ 'z' then some (c.toNat - 87)
    else if 'A' ≤ c && c ≤ 'Z' then some (c.toNat - 55)
    else none
  match v with
  | some d => if d < base then some d else none
  | none => none

/-- Digits (with Python's single-underscore separators) after the first
digit has been consumed into `acc`. -/
def parseDigitsCore (base : Nat) (acc : Nat) : List Char → Option Nat
  | [] => some acc
  | '_' :: c :: rest =>
    match digitValBase base c with
    | some d => parseDigitsCore base (acc * base + d) rest
    | none => none
  | '_' :: [] => none
  | c :: rest =>
    match digitValBase base c with
    | some d => parseDigitsCore base (acc * base + d) rest
    | none => none

/-- A non-empty digit string (first character must be a digit). -/
def parseDigits (base : Nat) : List Char → Option Nat
  | [] => none
  | c :: rest =>
    match digitValBase base c with
    | some d => parseDigitsCore base d rest
    | none => none

/-- Unsigned part of Python's `int(s, base)`: an optional `0x`/`0X` radix
marker is accepted for base 16. -/
def parseUnsignedPy (base : Nat) (s : List Char) : Option Nat :=
  if base = 16 then
    match s with
    | '0' :: c :: rest =>
      if c = 'x' || c = 'X' then
        match rest with
        | '_' :: rest2 => parseDigits 16 rest2
        | _ => parseDigits 16 rest
      else parseDigits 16 s
    | _ => parseDigits 16 s
  else parseDigits base s

/-- Python's `str.strip()` over the ASCII whitespace set. -/
def stripPyWs (s : List Char) : List Char :=
  ((s.dropWhile isPyWs).reverse.dropWhile isPyWs).reverse

/-- Python's `int(s, base)`: surrounding whitespace and an optional sign are
accepted; on any other malformation the call raises `ValueError`, modelled
as `none`. -/
def pyIntParse (base : Nat) (s : List Char) : Option Int :=
  match stripPyWs s with
  | '+' :: rest => (parseUnsignedPy base rest).map Int.ofNat
  | '-' :: rest => (parseUnsignedPy base rest).map (fun n => -(n : Int))
  | t => (parseUnsignedPy base t).map Int.ofNat

/-- The decimal digit character for `n < 10`. -/
def digitChar (n : Nat) : Char := Char.ofNat (48 + n)

/-- Decimal rendering of a natural number, with explicit division fuel. -/
def natToCharsAux : Nat → Nat → List Char
  | 0, _ => []
  | fuel + 1, n =>
    if n < 10 then [digitChar n]
    else natToCharsAux fuel (n / 10) ++ [digitChar (n % 10)]

/-- Decimal rendering of a natural number, as Python's `str` prints it. -/
def natToChars (n : Nat) : List Char := natToCharsAux (n + 1) n

/-- Decimal rendering of an integer, as Python's `str`/f-string prints it. -/
def intToChars : Int → List Char
  | Int.ofNat n => natToChars n
  | Int.negSucc m => '-' :: natToChars (m + 1)

/-- Spec-side reading of a digit string as a decimal numeral (used to state
that a rendered field is the plain decimal form of its value). -/
def decVal (s : List Char) : Nat :=
  s.foldl (fun a c => 10 * a + (c.toNat - 48)) 0

/-- Spec-side reading of an optionally `'-'`-signed digit string. -/
def intVal : List Char → Int
  | [] => 0
  | c :: rest => if c = '-' then -(decVal rest : Int) else (decVal (c :: rest) : Int)

/-! ## The metric extractors of `parse_benchmarks.py`

The ten `parse_*` functions of the source share one body shape: find the
first occurrence of a marker string (`str.find`, -1 on absence), slice from
the end of the marker to the first occurrence of a terminator character
(`str.find` again, so the slice end is -1 when the terminator is absent),
strip spaces, and convert with `int(_, base)`, returning a per-metric
default on absence or `ValueError`.  `parse_generic` is that shared body;
each source function is its instantiation with the source's literal
marker, terminator, base and default. -/

/-- Shared body of the source's `parse_*` functions. -/
def parse_generic (start_string : List Char) (term : Char) (base : Nat)
    (deflt : Int) (stdout : List Char) : Int :=
  match findSub stdout start_string with
  | none => deflt
  | some i =>
    let s2 := i + start_string.length
    let end_index : Int :=
      match findSub (stdout.drop s2) [term] with
      | none => -1
      | some j => ((s2 + j : Nat) : Int)
    let str := stripSpaces (pySlice stdout (s2 : Int) end_index)
    match pyIntParse base str with
    | some v => v
    | none => deflt

/-- `get_report_start`: index of the first occurrence of
`"Program exit with code: "`, or 0 when absent. -/
def get_report_start (stdout : List Char) : Nat :=
  match findSub stdout ("Program exit with code: ").data with
  | none => 0
  | some i => i

/-- `parse_status`: hexadecimal exit code after `"Program exit with code: "`
up to `'('`; default 1. -/
def parse_status (stdout : List Char) : Int :=
  parse_generic ("Program exit with code: ").data '(' 16 1 stdout

/-- `parse_retired_instructions`: decimal after `"retired instructions:"`
up to newline; default 0. -/
def parse_retired_instructions (stdout : List Char) : Int :=
  parse_generic ("retired instructions:").data '\n' 10 0 stdout

/-- `parse_cycles`: decimal after `"total CPU cycles: "` up to newline;
default 0. -/
def parse_cycles (stdout : List Char) : Int :=
  parse_generic ("total CPU cycles: ").data '\n' 10 0 stdout

/-- `parse_jumps`: decimal after `"- jumps: "` up to `'('`; default 0. -/
def parse_jumps (stdout : List Char) : Int :=
  parse_generic ("- jumps: ").data '(' 10 0 stdout

/-- `parse_branches`: decimal after `"- branches:"` up to `'('`; default 0. -/
def parse_branches (stdout : List Char) : Int :=
  parse_generic ("- branches:").data '(' 10 0 stdout

/-- `parse_loads`: decimal after `"- loads:"` up to `'('`; default 0. -/
def parse_loads (stdout : List Char) : Int :=
  parse_generic ("- loads:").data '(' 10 0 stdout

/-- `parse_stores`: decimal after `"- stores:"` up to `'('`; default 0. -/
def parse_stores (stdout : List Char) : Int :=
  parse_generic ("- stores:").data '(' 10 0 stdout

/-- `parse_inst_fetches`: decimal after `"- instruction fetches:"` up to
`'('`; default 0. -/
def parse_inst_fetches (stdout : List Char) : Int :=
  parse_generic ("- instruction fetches:").data '(' 10 0 stdout

/-- `parse_writes`: decimal after `"- write requests: "` up to `'('`;
default 0. -/
def parse_writes (stdout : List Char) : Int :=
  parse_generic ("- write requests: ").data '(' 10 0 stdout

/-- `parse_reads`: decimal after `"- read requests:"` up to `'('`;
default 0. -/
def parse_reads (stdout : List Char) : Int :=
  parse_generic ("- read requests:").data '(' 10 0 stdout

/-! ## The results table -/

/-- One row of the results table: the fields `update_table` assigns for a
benchmark.  `ipc` (a Python float, `instructions / cycles`) is modelled as
an exact rational. -/
structure MetricSet where
  status : Bool
  instructions : Int
  cycles : Int
  ipc : ℚ
  jumps : Int
  branches : Int
  branch_jump : Int
  loads : Int
  stores : Int
  load_store : Int
  instr_fetches : Int
  read_req : Int
  write_req : Int
  memory_req : Int
deriving DecidableEq, Repr

/-- The body of `update_table` for one benchmark: every field of the row is
recomputed from the log text (field-assignment order as in the source). -/
def extractMetrics (output_log : List Char) : MetricSet :=
  let status := parse_status output_log = 0
  let instructions := parse_retired_instructions output_log
  let cycles := parse_cycles output_log
  let ipc : ℚ := if cycles ≠ 0 then (instructions : ℚ) / (cycles : ℚ) else 0
  let jumps := parse_jumps output_log
  let branches := parse_branches output_log
  let loads := parse_loads output_log
  let stores := parse_stores output_log
  let instr_fetches := parse_inst_fetches output_log
  let read_req := parse_reads output_log
  let write_req := parse_writes output_log
  { status := status
    instructions := instructions
    cycles := cycles
    ipc := ipc
    jumps := jumps
    branches := branches
    branch_jump := jumps + branches
    loads := loads
    stores := stores
    load_store := loads + stores
    instr_fetches := instr_fetches
    read_req := read_req
    write_req := write_req
    memory_req := instr_fetches + write_req + read_req }

/-- The results table: a Python dict keyed by log file name, in insertion
order. -/
abbrev Table := List (List Char × MetricSet)

/-- Python dict assignment `table[k] = v`: replace in place when the key is
present, append otherwise. -/
def tableInsert : Table → List Char → MetricSet → Table
  | [], k, v => [(k, v)]
  | (k', v') :: rest, k, v =>
    if k' = k then (k, v) :: rest else (k', v') :: tableInsert rest k v

/-- `update_table`: store the metrics extracted from `output_log` as the row
of `benchmark`. -/
def update_table (table : Table) (benchmark output_log : List Char) : Table :=
  tableInsert table benchmark (extractMetrics output_log)

/-! ## Output formatting -/

/-- Round `q * 100` to the nearest integer, ties to even (the rounding of
Python's `format(x, '.2f')`), computed on the reduced numerator and
denominator: `f` is the floor of `q * 100` and `r` the remainder. -/
def rhe2 (q : ℚ) : Int :=
  let n := q.num * 100
  let d : Int := (q.den : Int)
  let f := Int.fdiv n d
  let r := n - f * d
  if 2 * r < d then f
  else if d < 2 * r then f + 1
  else if f % 2 = 0 then f else f + 1

/-- Python's `f"{q: .2f}"`: the space flag puts `' '` where a nonnegative
value has no sign, and exactly two digits follow the decimal point. -/
def formatFixed2 (q : ℚ) : List Char :=
  let n := rhe2 q
  let sign : List Char := if q.num < 0 then ['-'] else [' ']
  let m := n.natAbs
  sign ++ natToChars (m / 100) ++ ['.'] ++
    (if m % 100 < 10 then ['0', digitChar (m % 100)] else natToChars (m % 100))

/-- Python's `str` of a bool, as an f-string renders `results['status']`. -/
def pyBoolStr (b : Bool) : List Char :=
  if b then ("True").data else ("False").data

/-- Pad with spaces on the left to width `w` (Python's `{n:4d}`). -/
def padLeft (w : Nat) (s : List Char) : List Char :=
  List.replicate (w - s.length) ' ' ++ s

/-- Pad with spaces on the right to width `w` (Python's `{s:15}`). -/
def padRight (w : Nat) (s : List Char) : List Char :=
  s ++ List.replicate (w - s.length) ' '

/-- The header line written by `print_table_to_file_csv`. -/
def csvHeader : List Char :=
  ("Benchmark,Status,Instructions,Cycles,IPC,Jumps,Branches,Branch/Jump Instructions,Loads,Stores,Load/Store Instructions,Instruction fetches,Write Requests,Read Requests,Memory Requests").data

/-- One data row of `benchmarks.csv`, in the field order of the source's
`file.write` calls. -/
def csvRow (benchmark : List Char) (r : MetricSet) : List Char :=
  pySlice benchmark 0 (-4) ++ (",").data ++ pyBoolStr r.status ++ (",").data ++
  intToChars r.instructions ++ (",").data ++ intToChars r.cycles ++ (",").data ++
  formatFixed2 r.ipc ++ (",").data ++ intToChars r.jumps ++ (",").data ++
  intToChars r.branches ++ (",").data ++ intToChars r.branch_jump ++ (",").data ++
  intToChars r.loads ++ (",").data ++ intToChars r.stores ++ (",").data ++
  intToChars r.load_store ++ (",").data ++ intToChars r.instr_fetches ++ (",").data ++
  intToChars r.read_req ++ (",").data ++ intToChars r.write_req ++ (",").data ++
  intToChars r.memory_req

/-- The lines of `benchmarks.csv`: the fixed header, then one row per table
entry in table order. -/
def csvLines (stats : Table) : List (List Char) :=
  csvHeader :: stats.map (fun p => csvRow p.1 p.2)

/-! ## The `__main__` flow -/

/-- The hard-coded whitelist `BENCH_WHITE_LISTE`. -/
def BENCH_WHITE_LISTE : List (List Char) :=
  [("cubic").data, ("nbody").data, ("nettle-sha256").data, ("st").data, ("ud").data]

/-- `b[:-4]`: the identifier used by the whitelist check, the console
summary and the CSV rows. -/
def identOf (b : List Char) : List Char := pySlice b 0 (-4)

/-- The stats table built by the main loop: each listed log file is read,
sliced from `get_report_start`, and passed to `update_table`. -/
def buildStats (benchmarks : List (List Char × List Char)) : Table :=
  benchmarks.foldl
    (fun stats p => update_table stats p.1 (p.2.drop (get_report_start p.2))) []

/-- `all([s["status"] for b, s in stats.items() if b[:-4] not in BENCH_WHITE_LISTE])`. -/
def gatePass (stats : Table) : Bool :=
  (stats.filter (fun p => !(BENCH_WHITE_LISTE.contains (identOf p.1)))).all
    (fun p => p.2.status)

/-- The failing non-whitelisted identifiers, in table order. -/
def failingIdents (stats : Table) : List (List Char) :=
  (stats.filter
    (fun p => !(BENCH_WHITE_LISTE.contains (identOf p.1)) && !p.2.status)).map
    (fun p => identOf p.1)

/-- The accumulation loop building `benchmarks_fail`: for every failing
non-whitelisted row append `", "` and the identifier. -/
def benchFailAcc (stats : Table) : List Char :=
  stats.foldl
    (fun acc p =>
      if !(BENCH_WHITE_LISTE.contains (identOf p.1)) && !p.2.status then
        acc ++ (", ").data ++ identOf p.1
      else acc) []

/-- The terminal-color reset sequence `"\033[00m"` appended to the failure
message. -/
def esc00 : List Char := ("\x1b[00m").data

/-- The string printed on a gating failure:
`benchmarks_fail = benchmarks_fail[2:] + ".\033[00m"`. -/
def benchmarks_fail (stats : Table) : List Char :=
  (benchFailAcc stats).drop 2 ++ (".").data ++ esc00

/-- Observable outcome of a run: the process exit code, the failure message
printed on a gating failure, and the CSV lines written when gating passes. -/
structure RunOutcome where
  exitCode : Nat
  failMsg : Option (List Char)
  csv : Option (List (List Char))
deriving DecidableEq, Repr

/-- The gating and reporting tail of `__main__`: build the table, then
either exit 1 with the failure message and no CSV, or exit 0 and write the
CSV. -/
def runMain (benchmarks : List (List Char × List Char)) : RunOutcome :=
  let stats := buildStats benchmarks
  if gatePass stats then
    { exitCode := 0, failMsg := none, csv := some (csvLines stats) }
  else
    { exitCode := 1, failMsg := some (benchmarks_fail stats), csv := none }

/-! ## The console summary -/

/-- `"\033[92mSUCCESS\033[00m"`. -/
def successTag : List Char := ("\x1b[92mSUCCESS\x1b[00m").data

/-- `"\033[91mFAILURE\033[00m"`. -/
def failureTag : List Char := ("\x1b[91mFAILURE\x1b[00m").data

/-- The line printed for row `i` of the table: the success branch prints
`i+1`, the failure branch prints `i`. -/
def consoleLine (i : Nat) (b : List Char) (r : MetricSet) : List Char :=
  if r.status then
    padLeft 4 (natToChars (i + 1)) ++ (") ").data ++ padRight 15 (pySlice b 0 (-4)) ++
      (": ").data ++ successTag ++ (" (IPC=").data ++ formatFixed2 r.ipc ++ (")").data
  else
    padLeft 4 (natToChars i) ++ (") ").data ++ padRight 15 (pySlice b 0 (-4)) ++
      (": ").data ++ failureTag ++ (" (IPC=").data ++ formatFixed2 r.ipc ++ (")").data

/-- The per-row console lines, with `enumerate`'s running index. -/
def consoleLinesAux : Nat → Table → List (List Char)
  | _, [] => []
  | i, (b, r) :: rest => consoleLine i b r :: consoleLinesAux (i + 1) rest

/-- All per-row console lines of the summary, in table order. -/
def consoleLines (stats : Table) : List (List Char) := consoleLinesAux 0 stats

/-- The final `correctly_ex` counter: rows whose `status` is true. -/
def correctly_ex (stats : Table) : Nat :=
  (stats.filter (fun p => p.2.status)).length

/-- The closing summary line. -/
def finalLine (stats : Table) : List Char :=
  ("Correctly executed testbenches ").data ++ natToChars (correctly_ex stats) ++
    (" out of ").data ++ natToChars stats.length ++ (".").data

/-! ## Facts about the substring search -/

theorem findSub_none {s pat : List Char} (h : findSub s pat = none) :
    ∀ j, pat.isPrefixOf (s.drop j) = false := by
  induction s with
  | nil =>
    intro j
    simp only [findSub] at h
    split at h
    · exact absurd h (by simp)
    · rename_i hp
      simp only [Bool.not_eq_true] at hp
      simpa using hp
  | cons c rest ih =>
    simp only [findSub] at h
    split at h
    · exact absurd h (by simp)
    · rename_i hp
      simp only [Bool.not_eq_true] at hp
      intro j
      cases j with
      | zero => simpa using hp
      | succ j =>
        have hr : findSub rest pat = none := by
          cases hr : findSub rest pat with
          | none => rfl
          | some k => rw [hr] at h; simp at h
        simpa using ih hr j

theorem findSub_some {s pat : List Char} {i : Nat} (h : findSub s pat = some i) :
    pat.isPrefixOf (s.drop i) = true ∧
      ∀ j, j < i → pat.isPrefixOf (s.drop j) = false := by
  induction s generalizing i with
  | nil =>
    simp only [findSub] at h
    split at h
    · rename_i hp
      obtain rfl : i = 0 := by simpa using h.symm
      exact ⟨by simpa using hp, by intro j hj; omega⟩
    · simp at h
  | cons c rest ih =>
    simp only [findSub] at h
    split at h
    · rename_i hp
      obtain rfl : i = 0 := by simpa using h.symm
      exact ⟨by simpa using hp, by intro j hj; omega⟩
    · rename_i hp
      simp only [Bool.not_eq_true] at hp
      cases hr : findSub rest pat with
      | none => rw [hr] at h; simp at h
      | some k =>
        rw [hr] at h
        obtain rfl : i = k + 1 := by simpa using h.symm
        obtain ⟨h1, h2⟩ := ih hr
        refine ⟨by simpa using h1, ?_⟩
        intro j hj
        cases j with
        | zero => simpa using hp
        | succ j => simpa using h2 j (by omega)

/-- A single-character pattern is first found right after the characters
that are not it. -/
theorem findSub_singleton_append {c : Char} {pre post : List Char}
    (h : c ∉ pre) : findSub (pre ++ c :: post) [c] = some pre.length := by
  induction pre with
  | nil => simp [findSub, List.isPrefixOf]
  | cons p pre' ih =>
    have hpc : (c == p) = false := by
      simp only [List.mem_cons, not_or] at h
      simpa [beq_iff_eq] using h.1
    have hpre : c ∉ pre' := by
      simp only [List.mem_cons, not_or] at h
      exact h.2
    simp [findSub, List.isPrefixOf, hpc, ih hpre]

/-- If a pattern occurs, it occurs within the text. -/
theorem findSub_some_le {s pat : List Char} {i : Nat}
    (h : findSub s pat = some i) : i ≤ s.length := by
  induction s generalizing i with
  | nil =>
    simp only [findSub] at h
    split at h
    · simp_all
    · simp at h
  | cons c rest ih =>
    simp only [findSub] at h
    split at h
    · obtain rfl : i = 0 := by simpa using h.symm
      simp
    · cases hr : findSub rest pat with
      | none => rw [hr] at h; simp at h
      | some k =>
        rw [hr] at h
        obtain rfl : i = k + 1 := by simpa using h.symm
        simpa using ih hr

/-! ## Facts about Python slicing -/

/-- Dropping `min a len` and dropping `a` agree on lists no longer than
`len`. -/
theorem drop_min_of_le {α : Type} {t : List α} {a len : Nat}
    (h : t.length ≤ len) : t.drop (min a len) = t.drop a := by
  rcases Nat.le_total a len with h' | h'
  · rw [Nat.min_eq_left h']
  · rw [Nat.min_eq_right h', List.drop_of_length_le h,
      List.drop_of_length_le (le_trans h h')]

theorem pySlice_nat (s : List Char) (a b : Nat) :
    pySlice s (a : Int) (b : Int) = (s.take b).drop a := by
  unfold pySlice pyClampIdx
  have ha : ¬ ((a : Int) < 0) := by omega
  have hb : ¬ ((b : Int) < 0) := by omega
  simp only [if_neg ha, if_neg hb, Int.toNat_ofNat]
  have htake : s.take (min b s.length) = s.take b := by
    rw [List.take_eq_take]; omega
  rw [htake]
  exact drop_min_of_le (by simp)

theorem pySlice_neg_one (s : List Char) (a : Nat) :
    pySlice s (a : Int) (-1) = (s.drop a).dropLast := by
  unfold pySlice pyClampIdx
  have ha : ¬ ((a : Int) < 0) := by omega
  have h1 : ((-1 : Int) < 0) := by omega
  simp only [if_neg ha, if_pos h1, Int.toNat_ofNat]
  have hlb : (-1 + (s.length : Int)).toNat = s.length - 1 := by omega
  rw [hlb]
  rw [@drop_min_of_le _ (s.take (s.length - 1)) a s.length (by simp)]
  rw [List.drop_take, List.dropLast_eq_take, List.length_drop]
  congr 1
  omega

theorem pySlice_zero_neg_four (s : List Char) :
    pySlice s 0 (-4) = s.take (s.length - 4) := by
  unfold pySlice pyClampIdx
  have h4 : ((-4 : Int) < 0) := by omega
  have h0 : ¬ ((0 : Int) < 0) := by omega
  simp only [if_pos h4, if_neg h0]
  have hlb : (-4 + (s.length : Int)).toNat = s.length - 4 := by omega
  rw [hlb]
  simp

/-! ## Facts about the shared extractor body -/

theorem parse_generic_absent {m : List Char} {t : Char} {base : Nat} {d : Int}
    {stdout : List Char} (h : findSub stdout m = none) :
    parse_generic m t base d stdout = d := by
  simp only [parse_generic, h]

/-- When the marker occurs and the terminator occurs after it, the parsed
substring is exactly the characters strictly between marker end and the
first terminator. -/
theorem parse_generic_found {m : List Char} {t : Char} {base : Nat} {d : Int}
    {stdout : List Char} {i : Nat} {pre post : List Char}
    (hfind : findSub stdout m = some i)
    (hdrop : stdout.drop (i + m.length) = pre ++ t :: post)
    (hmem : t ∉ pre) :
    parse_generic m t base d stdout =
      match pyIntParse base (stripSpaces pre) with
      | some v => v
      | none => d := by
  simp only [parse_generic, hfind]
  rw [hdrop, findSub_singleton_append hmem]
  have hslice :
      pySlice stdout ((i + m.length : Nat) : Int)
        ((i + m.length + pre.length : Nat) : Int) = pre := by
    rw [pySlice_nat, List.drop_take, Nat.add_sub_cancel_left, hdrop,
      List.take_left pre (t :: post)]
  rw [hslice]

/-- When the marker occurs but the terminator does not occur after it, the
slice end index is `-1`, so the parsed substring is the tail of the text
with its last character removed. -/
theorem parse_generic_noterm {m : List Char} {t : Char} {base : Nat} {d : Int}
    {stdout : List Char} {i : Nat}
    (hfind : findSub stdout m = some i)
    (hterm : findSub (stdout.drop (i + m.length)) [t] = none) :
    parse_generic m t base d stdout =
      match pyIntParse base (stripSpaces ((stdout.drop (i + m.length)).dropLast)) with
      | some v => v
      | none => d := by
  simp only [parse_generic, hfind, hterm]
  rw [pySlice_neg_one]

/-! ## Facts about the table -/

theorem tableInsert_self (t : Table) (k : List Char) (v v' : MetricSet) :
    tableInsert (tableInsert t k v') k v = tableInsert t k v := by
  induction t with
  | nil => simp [tableInsert]
  | cons q rest ih =>
    by_cases hk : q.1 = k
    · simp [tableInsert, hk]
    · simp [tableInsert, hk, ih]

theorem lookup_tableInsert (t : Table) (k : List Char) (v : MetricSet) :
    List.lookup k (tableInsert t k v) = some v := by
  induction t with
  | nil => simp [tableInsert, List.lookup]
  | cons q rest ih =>
    by_cases hk : q.1 = k
    · simp [tableInsert, hk, List.lookup]
    · have : (k == q.1) = false := by simpa [beq_iff_eq] using Ne.symm hk
      simp [tableInsert, hk, List.lookup, this, ih]

theorem mem_tableInsert {t : Table} {k : List Char} {v : MetricSet}
    {p : List Char × MetricSet} (h : p ∈ tableInsert t k v) :
    p ∈ t ∨ p = (k, v) := by
  induction t with
  | nil =>
    right
    simpa [tableInsert] using h
  | cons q rest ih =>
    obtain ⟨k', v'⟩ := q
    by_cases hk : k' = k
    · rw [show tableInsert ((k', v') :: rest) k v = (k, v) :: rest from by
        simp [tableInsert, hk]] at h
      rcases List.mem_cons.mp h with h | h
      · exact Or.inr h
      · exact Or.inl (List.mem_cons_of_mem _ h)
    · rw [show tableInsert ((k', v') :: rest) k v
          = (k', v') :: tableInsert rest k v from by simp [tableInsert, hk]] at h
      rcases List.mem_cons.mp h with h | h
      · exact Or.inl (h ▸ List.mem_cons_self (k', v') rest)
      · rcases ih h with h' | h'
        · exact Or.inl (List.mem_cons_of_mem _ h')
        · exact Or.inr h'

/-- Every row of the stats table built by the main loop is the extraction
of some (sliced) log text. -/
theorem buildStats_row {benchmarks : List (List Char × List Char)}
    {p : List Char × MetricSet} (hp : p ∈ buildStats benchmarks) :
    ∃ log, p.2 = extractMetrics log := by
  suffices h : ∀ (bs : List (List Char × List Char)) (t : Table),
      (∀ q ∈ t, ∃ log, (q : List Char × MetricSet).2 = extractMetrics log) →
      ∀ q ∈ bs.foldl
        (fun stats p => update_table stats p.1 (p.2.drop (get_report_start p.2))) t,
        ∃ log, (q : List Char × MetricSet).2 = extractMetrics log by
    exact h benchmarks [] (by simp) p hp
  intro bs
  induction bs with
  | nil => intro t ht q hq; exact ht q hq
  | cons b rest ih =>
    intro t ht q hq
    refine ih _ ?_ q hq
    intro r hr
    rcases mem_tableInsert hr with h' | h'
    · exact ht r h'
    · exact ⟨b.2.drop (get_report_start b.2), by rw [h']⟩

/-! ## Facts about the gating check -/

theorem gatePass_eq_true_iff (stats : Table) :
    gatePass stats = true ↔
      ∀ p ∈ stats, identOf p.1 ∉ BENCH_WHITE_LISTE → p.2.status = true := by
  unfold gatePass
  rw [List.all_eq_true]
  constructor
  · intro h p hp hw
    exact h p (List.mem_filter.mpr ⟨hp, by simpa using hw⟩)
  · intro h p hp
    obtain ⟨hp', hw⟩ := List.mem_filter.mp hp
    exact h p hp' (by simpa using hw)

theorem gatePass_eq_false_iff (stats : Table) :
    gatePass stats = false ↔
      ∃ p ∈ stats, identOf p.1 ∉ BENCH_WHITE_LISTE ∧ p.2.status = false := by
  rw [← Bool.not_eq_true, gatePass_eq_true_iff]
  push_neg
  constructor
  · rintro ⟨p, hp, hw, hs⟩
    exact ⟨p, hp, hw, by simpa using hs⟩
  · rintro ⟨p, hp, hw, hs⟩
    exact ⟨p, hp, hw, by simp [hs]⟩

/-! ## Facts about the failure message -/

/-- Unfolding the `benchmarks_fail` accumulation loop: it produces `", "`
followed by each failing identifier, in table order. -/
theorem benchFailAcc_eq (stats : Table) :
    benchFailAcc stats
      = ((failingIdents stats).map (fun id => (", ").data ++ id)).flatten := by
  suffices h : ∀ (st : Table) (acc : List Char),
      st.foldl
        (fun acc p =>
          if !(BENCH_WHITE_LISTE.contains (identOf p.1)) && !p.2.status then
            acc ++ (", ").data ++ identOf p.1
          else acc) acc
        = acc ++ ((failingIdents st).map (fun id => (", ").data ++ id)).flatten by
    unfold benchFailAcc
    have h2 := h stats []
    simpa using h2
  intro st
  induction st with
  | nil => intro acc; simp [failingIdents]
  | cons q rest ih =>
    intro acc
    by_cases hq : (!(BENCH_WHITE_LISTE.contains (identOf q.1)) && !q.2.status) = true
    · have hf : failingIdents (q :: rest) = identOf q.1 :: failingIdents rest := by
        simp only [failingIdents, List.filter_cons, hq]
        simp
      simp only [List.foldl_cons, if_pos hq, hf, List.map_cons, List.flatten_cons, ih]
      simp [List.append_assoc]
    · have hf : failingIdents (q :: rest) = failingIdents rest := by
        simp only [failingIdents, List.filter_cons]
        rw [if_neg hq]
      simp only [List.foldl_cons, if_neg hq, hf, ih]

/-- Joining `", "`-headed chunks and dropping the first two characters
yields the comma-joined list. -/
theorem flatten_comma_chunks (l : List (List Char)) :
    ((l.map (fun id => (", ").data ++ id)).flatten).drop 2
      = List.intercalate ((", ").data) l := by
  have key : ∀ (xs : List (List Char)) (x : List Char),
      x ++ ((xs.map (fun id => (", ").data ++ id)).flatten)
        = List.intercalate ((", ").data) (x :: xs) := by
    intro xs
    induction xs with
    | nil =>
      intro x
      simp [List.intercalate]
    | cons z zs ih =>
      intro x
      simp only [List.map_cons, List.flatten_cons]
      rw [show List.intercalate ((", ").data) (x :: z :: zs)
          = x ++ ((", ").data ++ List.intercalate ((", ").data) (z :: zs)) from by
        simp [List.intercalate, List.intersperse_cons_cons]]
      rw [← ih z]
      simp [List.append_assoc]
  have hdrop : ∀ w : List Char, ((", ").data ++ w).drop 2 = w := fun w => rfl
  cases l with
  | nil => simp [List.intercalate]
  | cons x xs =>
    simp only [List.map_cons, List.flatten_cons, List.append_assoc]
    rw [hdrop]
    exact key xs x

/-- The printed failure message is the comma-joined failing identifiers,
a period, and the color-reset escape. -/
theorem benchmarks_fail_eq (stats : Table) :
    benchmarks_fail stats
      = List.intercalate ((", ").data) (failingIdents stats)
          ++ (".").data ++ esc00 := by
  unfold benchmarks_fail
  rw [benchFailAcc_eq, flatten_comma_chunks]

/-! ## Facts about the decimal renderings -/

theorem digitChar_facts {d : Nat} (hd : d < 10) :
    (digitChar d).toNat - 48 = d ∧ (digitChar d).isDigit = true ∧
      digitChar d ≠ '-' ∧ digitChar d ≠ '.' := by
  interval_cases d <;> exact ⟨by decide, by decide, by decide, by decide⟩

theorem decVal_append_singleton (a : List Char) (c : Char) :
    decVal (a ++ [c]) = 10 * decVal a + (c.toNat - 48) := by
  simp [decVal, List.foldl_append]

theorem natToCharsAux_sound :
    ∀ fuel n, n < fuel → decVal (natToCharsAux fuel n) = n := by
  intro fuel
  induction fuel with
  | zero => intro n h; omega
  | succ f ih =>
    intro n h
    unfold natToCharsAux
    split
    · rename_i h10
      simpa [decVal] using (digitChar_facts h10).1
    · rename_i h10
      rw [decVal_append_singleton, ih (n / 10) ?_, (digitChar_facts (Nat.mod_lt n (by omega))).1]
      · omega
      · have := Nat.div_lt_self (by omega : 0 < n) (by omega : 1 < 10)
        omega

theorem natToChars_decVal (n : Nat) : decVal (natToChars n) = n :=
  natToCharsAux_sound (n + 1) n (Nat.lt_succ_self n)

theorem natToCharsAux_digits :
    ∀ fuel n c, c ∈ natToCharsAux fuel n → ∃ d, d < 10 ∧ c = digitChar d := by
  intro fuel
  induction fuel with
  | zero => intro n c hc; simp [natToCharsAux] at hc
  | succ f ih =>
    intro n c hc
    unfold natToCharsAux at hc
    split at hc
    · rename_i h10
      exact ⟨n, h10, by simpa using hc⟩
    · rcases List.mem_append.mp hc with hc' | hc'
      · exact ih _ _ hc'
      · exact ⟨n % 10, Nat.mod_lt n (by omega), by simpa using hc'⟩

theorem natToChars_digits {n : Nat} {c : Char} (hc : c ∈ natToChars n) :
    ∃ d, d < 10 ∧ c = digitChar d :=
  natToCharsAux_digits (n + 1) n c hc

theorem natToChars_ne_nil (n : Nat) : natToChars n ≠ [] := by
  unfold natToChars natToCharsAux
  split <;> simp

theorem intVal_intToChars (v : Int) : intVal (intToChars v) = v := by
  cases v with
  | ofNat n =>
    show intVal (natToChars n) = n
    cases h : natToChars n with
    | nil => exact absurd h (natToChars_ne_nil n)
    | cons c rest =>
      have hc : c ∈ natToChars n := h ▸ List.mem_cons_self c rest
      obtain ⟨d, hd, rfl⟩ := natToChars_digits hc
      rw [intVal, if_neg (digitChar_facts hd).2.2.1, ← h, natToChars_decVal]
  | negSucc m =>
    show intVal ('-' :: natToChars (m + 1)) = Int.negSucc m
    rw [intVal, if_pos rfl, natToChars_decVal, Int.negSucc_eq]
    push_cast
    ring

theorem intToChars_no_dot {v : Int} {c : Char} (hc : c ∈ intToChars v) :
    c ≠ '.' := by
  cases v with
  | ofNat n =>
    obtain ⟨d, hd, rfl⟩ := natToChars_digits hc
    exact (digitChar_facts hd).2.2.2
  | negSucc m =>
    rcases List.mem_cons.mp hc with rfl | hc'
    · decide
    · obtain ⟨d, hd, rfl⟩ := natToChars_digits hc'
      exact (digitChar_facts hd).2.2.2

theorem natToCharsAux_single {fuel m : Nat} (hf : 0 < fuel) (hm : m < 10) :
    natToCharsAux fuel m = [digitChar m] := by
  cases fuel with
  | zero => omega
  | succ f => unfold natToCharsAux; rw [if_pos hm]

theorem natToChars_two_digit {k : Nat} (h10 : 10 ≤ k) (h100 : k < 100) :
    natToChars k = [digitChar (k / 10), digitChar (k % 10)] := by
  unfold natToChars natToCharsAux
  rw [if_neg (by omega)]
  rw [natToCharsAux_single (by omega) (by omega)]
  rfl

/-- The IPC field always renders with a final `'.'` followed by exactly two
digit characters, and no other `'.'` occurs in it. -/
theorem formatFixed2_decomp (q : ℚ) :
    ∃ w d1 d2, formatFixed2 q = w ++ ['.', d1, d2] ∧
      d1.isDigit = true ∧ d2.isDigit = true ∧ ∀ c ∈ w, c ≠ '.' := by
  have hmain : formatFixed2 q
      = ((if q.num < 0 then ['-'] else [' ']) ++ natToChars ((rhe2 q).natAbs / 100)) ++
          (['.'] ++
            (if (rhe2 q).natAbs % 100 < 10 then
              ['0', digitChar ((rhe2 q).natAbs % 100)]
            else natToChars ((rhe2 q).natAbs % 100))) := by
    simp only [formatFixed2]
    simp [List.append_assoc]
  have hw : ∀ c ∈ (if q.num < 0 then ['-'] else [' '])
      ++ natToChars ((rhe2 q).natAbs / 100), c ≠ '.' := by
    intro c hc
    rcases List.mem_append.mp hc with hc' | hc'
    · split at hc' <;> (simp only [List.mem_singleton] at hc'; subst hc'; decide)
    · obtain ⟨d, hd, rfl⟩ := natToChars_digits hc'
      exact (digitChar_facts hd).2.2.2
  by_cases hlt : (rhe2 q).natAbs % 100 < 10
  · refine ⟨(if q.num < 0 then ['-'] else [' ']) ++ natToChars ((rhe2 q).natAbs / 100),
      '0', digitChar ((rhe2 q).natAbs % 100), ?_, by decide,
      (digitChar_facts (by omega)).2.1, hw⟩
    rw [hmain, if_pos hlt]
    rfl
  · refine ⟨(if q.num < 0 then ['-'] else [' ']) ++ natToChars ((rhe2 q).natAbs / 100),
      digitChar ((rhe2 q).natAbs % 100 / 10), digitChar ((rhe2 q).natAbs % 100 % 10),
      ?_, (digitChar_facts (by omega)).2.1, (digitChar_facts (by omega)).2.1, hw⟩
    rw [hmain, if_neg hlt,
      natToChars_two_digit (by omega) (Nat.mod_lt _ (by omega))]
    rfl

/-! ## Projections of `extractMetrics` -/

theorem extractMetrics_status (log : List Char) :
    (extractMetrics log).status = decide (parse_status log = 0) := rfl

theorem extractMetrics_instructions (log : List Char) :
    (extractMetrics log).instructions = parse_retired_instructions log := rfl

theorem extractMetrics_cycles (log : List Char) :
    (extractMetrics log).cycles = parse_cycles log := rfl

theorem extractMetrics_ipc (log : List Char) :
    (extractMetrics log).ipc =
      if parse_cycles log ≠ 0 then
        (parse_retired_instructions log : ℚ) / (parse_cycles log : ℚ)
      else 0 := rfl

theorem extractMetrics_jumps (log : List Char) :
    (extractMetrics log).jumps = parse_jumps log := rfl

theorem extractMetrics_branches (log : List Char) :
    (extractMetrics log).branches = parse_branches log := rfl

theorem extractMetrics_branch_jump (log : List Char) :
    (extractMetrics log).branch_jump = parse_jumps log + parse_branches log := rfl

theorem extractMetrics_loads (log : List Char) :
    (extractMetrics log).loads = parse_loads log := rfl

theorem extractMetrics_stores (log : List Char) :
    (extractMetrics log).stores = parse_stores log := rfl

theorem extractMetrics_load_store (log : List Char) :
    (extractMetrics log).load_store = parse_loads log + parse_stores log := rfl

theorem extractMetrics_instr_fetches (log : List Char) :
    (extractMetrics log).instr_fetches = parse_inst_fetches log := rfl

theorem extractMetrics_read_req (log : List Char) :
    (extractMetrics log).read_req = parse_reads log := rfl

theorem extractMetrics_write_req (log : List Char) :
    (extractMetrics log).write_req = parse_writes log := rfl

theorem extractMetrics_memory_req (log : List Char) :
    (extractMetrics log).memory_req =
      parse_inst_fetches log + parse_writes log + parse_reads log := rfl

/-! ## The claims -/

/-- C6: before any metric is extracted, the extractor finds the first
occurrence of `"Program exit with code: "` in the raw log and discards
everything before it; if the substring is absent, the offset is 0 and the
full raw text is used unmodified. -/
theorem claim_C6 (raw : List Char) :
    (findSub raw ("Program exit with code: ").data = none →
      get_report_start raw = 0 ∧ raw.drop (get_report_start raw) = raw) ∧
    (∀ i, findSub raw ("Program exit with code: ").data = some i →
      get_report_start raw = i ∧
      ("Program exit with code: ").data.isPrefixOf (raw.drop i) = true ∧
      ∀ j, j < i →
        ("Program exit with code: ").data.isPrefixOf (raw.drop j) = false) := by
  constructor
  · intro h
    have h0 : get_report_start raw = 0 := by
      unfold get_report_start
      rw [h]
    exact ⟨h0, by rw [h0]; rfl⟩
  · intro i h
    have h0 : get_report_start raw = i := by
      unfold get_report_start
      rw [h]
    obtain ⟨h1, h2⟩ := findSub_some h
    exact ⟨h0, h1, h2⟩

theorem claim_C6_witness :
    get_report_start (("abc").data) = 0 ∧
      (("abc").data).drop (get_report_start (("abc").data)) = ("abc").data :=
  (claim_C6 (("abc").data)).1 (by decide)

/-- C2: the exit-status value following `"Program exit with code: "` is
parsed as a base-16 integer (substring terminated by the next `'('` and
trimmed of spaces), `status` is true exactly when the parsed value is 0,
and on marker absence or parse failure the raw status resolves to the
sentinel 1 and `status` is false. -/
theorem claim_C2 (log : List Char) :
    (findSub log ("Program exit with code: ").data = none →
      parse_status log = 1 ∧ (extractMetrics log).status = false) ∧
    (∀ i pre post,
      findSub log ("Program exit with code: ").data = some i →
      log.drop (i + (("Program exit with code: ").data).length) = pre ++ '(' :: post →
      '(' ∉ pre →
      ((pyIntParse 16 (stripSpaces pre) = none →
          parse_status log = 1 ∧ (extractMetrics log).status = false) ∧
        (∀ v, pyIntParse 16 (stripSpaces pre) = some v →
          parse_status log = v ∧ ((extractMetrics log).status = true ↔ v = 0)))) := by
  constructor
  · intro h
    have h1 : parse_status log = 1 := parse_generic_absent h
    refine ⟨h1, ?_⟩
    rw [extractMetrics_status, h1]
    rfl
  · intro i pre post hfind hdrop hmem
    have hgen := @parse_generic_found (("Program exit with code: ").data) '(' 16 1
      log i pre post hfind hdrop hmem
    constructor
    · intro hnone
      rw [hnone] at hgen
      have hps : parse_status log = 1 := hgen
      refine ⟨hps, ?_⟩
      rw [extractMetrics_status, hps]
      rfl
    · intro v hv
      rw [hv] at hgen
      have hps : parse_status log = v := hgen
      refine ⟨hps, ?_⟩
      rw [extractMetrics_status, hps]
      simp

theorem claim_C2_witness :
    parse_status (("Program exit with code: 0 (OK)").data) = 0 ∧
      ((extractMetrics (("Program exit with code: 0 (OK)").data)).status = true ↔
        (0 : Int) = 0) :=
  ((claim_C2 (("Program exit with code: 0 (OK)").data)).2 0 (("0 ").data)
    (("OK)").data) (by decide) (by decide) (by decide)).2 0 (by decide)

/-- C3 (amended): for every metric, marker absence yields the metric's
default (1, hence `status = false`, for status; 0 for every counter), a
found marker whose value substring fails to parse also yields the default,
and — restricting the claim's final clause to its valid scope — a log in
which none of the ten markers occurs yields `status = false` and all ten
counters 0. -/
theorem claim_C3_amended (log : List Char) :
    ((findSub log ("Program exit with code: ").data = none →
        parse_status log = 1 ∧ (extractMetrics log).status = false) ∧
      (findSub log ("retired instructions:").data = none →
        parse_retired_instructions log = 0) ∧
      (findSub log ("total CPU cycles: ").data = none → parse_cycles log = 0) ∧
      (findSub log ("- jumps: ").data = none → parse_jumps log = 0) ∧
      (findSub log ("- branches:").data = none → parse_branches log = 0) ∧
      (findSub log ("- loads:").data = none → parse_loads log = 0) ∧
      (findSub log ("- stores:").data = none → parse_stores log = 0) ∧
      (findSub log ("- instruction fetches:").data = none →
        parse_inst_fetches log = 0) ∧
      (findSub log ("- write requests: ").data = none → parse_writes log = 0) ∧
      (findSub log ("- read requests:").data = none → parse_reads log = 0)) ∧
    (∀ (marker : List Char) (term : Char) (base : Nat) (d : Int) i pre post,
      findSub log marker = some i →
      log.drop (i + marker.length) = pre ++ term :: post →
      term ∉ pre →
      pyIntParse base (stripSpaces pre) = none →
      parse_generic marker term base d log = d) ∧
    ((findSub log ("Program exit with code: ").data = none ∧
        findSub log ("retired instructions:").data = none ∧
        findSub log ("total CPU cycles: ").data = none ∧
        findSub log ("- jumps: ").data = none ∧
        findSub log ("- branches:").data = none ∧
        findSub log ("- loads:").data = none ∧
        findSub log ("- stores:").data = none ∧
        findSub log ("- instruction fetches:").data = none ∧
        findSub log ("- write requests: ").data = none ∧
        findSub log ("- read requests:").data = none) →
      extractMetrics log =
        { status := false, instructions := 0, cycles := 0, ipc := 0, jumps := 0,
          branches := 0, branch_jump := 0, loads := 0, stores := 0,
          load_store := 0, instr_fetches := 0, read_req := 0, write_req := 0,
          memory_req := 0 }) := by
  refine ⟨⟨?_, ?_, ?_, ?_, ?_, ?_, ?_, ?_, ?_, ?_⟩, ?_, ?_⟩
  · intro h
    have h1 : parse_status log = 1 := parse_generic_absent h
    exact ⟨h1, by rw [extractMetrics_status, h1]; rfl⟩
  · exact fun h => parse_generic_absent h
  · exact fun h => parse_generic_absent h
  · exact fun h => parse_generic_absent h
  · exact fun h => parse_generic_absent h
  · exact fun h => parse_generic_absent h
  · exact fun h => parse_generic_absent h
  · exact fun h => parse_generic_absent h
  · exact fun h => parse_generic_absent h
  · exact fun h => parse_generic_absent h
  · intro marker term base d i pre post hfind hdrop hmem hparse
    have hgen := @parse_generic_found marker term base d log i pre post hfind hdrop hmem
    rw [hparse] at hgen
    exact hgen
  · rintro ⟨h1, h2, h3, h4, h5, h6, h7, h8, h9, h10⟩
    have e1 : parse_status log = 1 := parse_generic_absent h1
    have e2 : parse_retired_instructions log = 0 := parse_generic_absent h2
    have e3 : parse_cycles log = 0 := parse_generic_absent h3
    have e4 : parse_jumps log = 0 := parse_generic_absent h4
    have e5 : parse_branches log = 0 := parse_generic_absent h5
    have e6 : parse_loads log = 0 := parse_generic_absent h6
    have e7 : parse_stores log = 0 := parse_generic_absent h7
    have e8 : parse_inst_fetches log = 0 := parse_generic_absent h8
    have e9 : parse_writes log = 0 := parse_generic_absent h9
    have e10 : parse_reads log = 0 := parse_generic_absent h10
    unfold extractMetrics
    rw [e1, e2, e3, e4, e5, e6, e7, e8, e9, e10]
    norm_num

/-- A log lacking the exit-status marker can still carry a nonzero counter:
the cycles marker alone sets `cycles = 500`, refuting the claim's final
clause as stated. -/
theorem claim_C3_counterexample :
    findSub (("total CPU cycles: 500\n").data)
        (("Program exit with code: ").data) = none ∧
      (extractMetrics (("total CPU cycles: 500\n").data)).status = false ∧
      (extractMetrics (("total CPU cycles: 500\n").data)).cycles = 500 := by
  refine ⟨by decide, by decide, by decide⟩

theorem claim_C3_witness :
    extractMetrics (("hello").data) =
      { status := false, instructions := 0, cycles := 0, ipc := 0, jumps := 0,
        branches := 0, branch_jump := 0, loads := 0, stores := 0,
        load_store := 0, instr_fetches := 0, read_req := 0, write_req := 0,
        memory_req := 0 } :=
  (claim_C3_amended (("hello").data)).2.2
    ⟨by decide, by decide, by decide, by decide, by decide, by decide, by decide,
      by decide, by decide, by decide⟩

/-- C10: when a marker is present but its terminator does not occur after
it, the slice end index is -1, so the value substring runs to the
second-to-last character; in particular a log that is exactly
`"total CPU cycles: 500"` yields `cycles = 50`, and a log that is exactly
`"Program exit with code: 0"` yields `status = false`. -/
theorem claim_C10 (log : List Char) :
    (∀ (marker : List Char) (term : Char) (base : Nat) (d : Int) i,
      findSub log marker = some i →
      findSub (log.drop (i + marker.length)) [term] = none →
      parse_generic marker term base d log =
        match pyIntParse base (stripSpaces ((log.drop (i + marker.length)).dropLast)) with
        | some v => v
        | none => d) ∧
    parse_cycles (("total CPU cycles: 500").data) = 50 ∧
    (extractMetrics (("Program exit with code: 0").data)).status = false := by
  refine ⟨?_, by decide, by decide⟩
  intro marker term base d i hfind hterm
  exact parse_generic_noterm hfind hterm

theorem claim_C10_witness :
    parse_generic (("total CPU cycles: ").data) '\n' 10 0
      (("total CPU cycles: 500").data) = 50 := by
  have h := (claim_C10 (("total CPU cycles: 500").data)).1
    (("total CPU cycles: ").data) '\n' 10 0 0 (by decide) (by decide)
  rw [h]
  decide

/-- C4: for every row of the aggregated table, `ipc` is 0 when `cycles` is
0 and is `instructions / cycles` otherwise. -/
theorem claim_C4 (benchmarks : List (List Char × List Char))
    (p : List Char × MetricSet) (hp : p ∈ buildStats benchmarks) :
    (p.2.cycles = 0 → p.2.ipc = 0) ∧
    (p.2.cycles ≠ 0 →
      p.2.ipc = (p.2.instructions : ℚ) / (p.2.cycles : ℚ)) := by
  obtain ⟨log, hlog⟩ := buildStats_row hp
  constructor
  · intro hc
    rw [hlog, extractMetrics_ipc]
    rw [hlog, extractMetrics_cycles] at hc
    rw [if_neg (by simpa using hc)]
  · intro hc
    rw [hlog, extractMetrics_ipc, extractMetrics_instructions, extractMetrics_cycles]
    rw [hlog, extractMetrics_cycles] at hc
    rw [if_pos hc]

theorem claim_C4_witness :
    ((((("a.log").data), extractMetrics (("").data)) :
        List Char × MetricSet)).2.ipc = 0 :=
  (claim_C4 [((("a.log").data), ("").data)]
    ((("a.log").data), extractMetrics (("").data)) (by decide)).1 (by decide)

/-- C5: for every row of the aggregated table, the derived totals satisfy
`memory_req = instr_fetches + read_req + write_req`,
`branch_jump = jumps + branches` and `load_store = loads + stores`. -/
theorem claim_C5 (benchmarks : List (List Char × List Char))
    (p : List Char × MetricSet) (hp : p ∈ buildStats benchmarks) :
    p.2.memory_req = p.2.instr_fetches + p.2.read_req + p.2.write_req ∧
    p.2.branch_jump = p.2.jumps + p.2.branches ∧
    p.2.load_store = p.2.loads + p.2.stores := by
  obtain ⟨log, hlog⟩ := buildStats_row hp
  rw [hlog, extractMetrics_memory_req, extractMetrics_instr_fetches,
    extractMetrics_read_req, extractMetrics_write_req, extractMetrics_branch_jump,
    extractMetrics_jumps, extractMetrics_branches, extractMetrics_load_store,
    extractMetrics_loads, extractMetrics_stores]
  refine ⟨by ring, rfl, rfl⟩

theorem claim_C5_witness :
    ((((("b.log").data), extractMetrics (("x").data)) :
          List Char × MetricSet)).2.memory_req =
        ((((("b.log").data), extractMetrics (("x").data)) :
          List Char × MetricSet)).2.instr_fetches +
        ((((("b.log").data), extractMetrics (("x").data)) :
          List Char × MetricSet)).2.read_req +
        ((((("b.log").data), extractMetrics (("x").data)) :
          List Char × MetricSet)).2.write_req :=
  (claim_C5 [((("b.log").data), ("x").data)]
    ((("b.log").data), extractMetrics (("x").data)) (by decide)).1

/-- C7: re-aggregating the same benchmark log is idempotent — the row is
replaced entirely by freshly extracted metrics, never merged. -/
theorem claim_C7 (t : Table) (b log : List Char) :
    update_table (update_table t b log) b log = update_table t b log ∧
    List.lookup b (update_table t b log) = some (extractMetrics log) :=
  ⟨tableInsert_self t b (extractMetrics log) (extractMetrics log),
    lookup_tableInsert t b (extractMetrics log)⟩

/-- C1: if some non-whitelisted benchmark has failing status, the process
exits 1, prints the comma-joined failing non-whitelisted identifiers and
writes no CSV; if every non-whitelisted benchmark succeeded, the process
exits 0 and writes the CSV with one row per benchmark in table order. -/
theorem claim_C1 (benchmarks : List (List Char × List Char)) :
    ((∃ p ∈ buildStats benchmarks,
        identOf p.1 ∉ BENCH_WHITE_LISTE ∧ p.2.status = false) →
      runMain benchmarks =
        { exitCode := 1,
          failMsg := some (List.intercalate ((", ").data)
            (failingIdents (buildStats benchmarks)) ++ (".").data ++ esc00),
          csv := none }) ∧
    ((∀ p ∈ buildStats benchmarks,
        identOf p.1 ∉ BENCH_WHITE_LISTE → p.2.status = true) →
      runMain benchmarks =
        { exitCode := 0, failMsg := none,
          csv := some (csvHeader ::
            (buildStats benchmarks).map (fun p => csvRow p.1 p.2)) }) := by
  have hrun : runMain benchmarks =
      if gatePass (buildStats benchmarks) then
        { exitCode := 0, failMsg := none,
          csv := some (csvLines (buildStats benchmarks)) }
      else
        { exitCode := 1,
          failMsg := some (benchmarks_fail (buildStats benchmarks)),
          csv := none } := rfl
  constructor
  · intro h
    have hg : gatePass (buildStats benchmarks) = false :=
      (gatePass_eq_false_iff _).mpr h
    rw [hrun, hg, benchmarks_fail_eq]
    rfl
  · intro h
    have hg : gatePass (buildStats benchmarks) = true :=
      (gatePass_eq_true_iff _).mpr h
    rw [hrun, hg]
    rfl

theorem claim_C1_witness :
    runMain [((("mybench.log").data), ("").data)] =
      { exitCode := 1,
        failMsg := some (List.intercalate ((", ").data)
          (failingIdents (buildStats [((("mybench.log").data), ("").data)])) ++
            (".").data ++ esc00),
        csv := none } :=
  (claim_C1 [((("mybench.log").data), ("").data)]).1
    ⟨((("mybench.log").data), extractMetrics (("").data)), by decide,
      by decide, by decide⟩

/-! ## Facts about the console summary -/

theorem consoleLinesAux_length (st : Table) :
    ∀ k, (consoleLinesAux k st).length = st.length := by
  induction st with
  | nil => intro k; rfl
  | cons q rest ih =>
    obtain ⟨b, r⟩ := q
    intro k
    simp [consoleLinesAux, ih]

theorem consoleLinesAux_getElem (st : Table) :
    ∀ k i, (consoleLinesAux k st)[i]? =
      (st[i]?).map (fun p => consoleLine (k + i) p.1 p.2) := by
  induction st with
  | nil => intro k i; simp [consoleLinesAux]
  | cons q rest ih =>
    obtain ⟨b, r⟩ := q
    intro k i
    cases i with
    | zero => simp [consoleLinesAux]
    | succ i =>
      have hk : k + 1 + i = k + (i + 1) := by omega
      simp [consoleLinesAux, ih (k + 1) i, hk]

/-- The printed line, decomposed: leading number (1-based index on success,
0-based on failure), stripped identifier, colored tag, IPC to two
decimals. -/
theorem consoleLine_eq (i : Nat) (b : List Char) (r : MetricSet) :
    consoleLine i b r =
      padLeft 4 (natToChars (if r.status then i + 1 else i)) ++ (") ").data ++
        padRight 15 (b.take (b.length - 4)) ++ (": ").data ++
        (if r.status then successTag else failureTag) ++
        (" (IPC=").data ++ formatFixed2 r.ipc ++ (")").data := by
  by_cases hs : r.status = true <;>
    simp [consoleLine, hs, pySlice_zero_neg_four]

/-- C8 (amended): for each row in table order the console prints a line
whose leading number is the row's 1-based position for success rows and
its 0-based position for failure rows (not a running success counter),
followed by the identifier with its last four characters stripped, a
SUCCESS/FAILURE tag driven by `status`, and the IPC to two decimals; the
final line reports the count of status-true benchmarks out of the total. -/
theorem claim_C8_amended (stats : Table) :
    (consoleLines stats).length = stats.length ∧
    (∀ i p, stats[i]? = some p →
      (consoleLines stats)[i]? = some
        (padLeft 4 (natToChars (if p.2.status then i + 1 else i)) ++ (") ").data ++
          padRight 15 (p.1.take (p.1.length - 4)) ++ (": ").data ++
          (if p.2.status then successTag else failureTag) ++
          (" (IPC=").data ++ formatFixed2 p.2.ipc ++ (")").data)) ∧
    finalLine stats =
      ("Correctly executed testbenches ").data ++
        natToChars ((stats.filter (fun p => p.2.status)).length) ++
        (" out of ").data ++ natToChars stats.length ++ (".").data := by
  refine ⟨consoleLinesAux_length stats 0, ?_, rfl⟩
  intro i p hp
  rw [show consoleLines stats = consoleLinesAux 0 stats from rfl,
    consoleLinesAux_getElem stats 0 i, hp]
  have hmap : Option.map (fun q => consoleLine (0 + i) q.1 q.2) (some p)
      = some (consoleLine (0 + i) p.1 p.2) := rfl
  rw [hmap, show (0 : Nat) + i = i from by omega, consoleLine_eq]

theorem claim_C8_witness :
    (consoleLines [((("w.log").data), extractMetrics (("").data))])[0]? = some
      (padLeft 4 (natToChars 0) ++ (") ").data ++
        padRight 15 ((("w.log").data).take ((("w.log").data).length - 4)) ++
        (": ").data ++ failureTag ++
        (" (IPC=").data ++ formatFixed2 (extractMetrics (("").data)).ipc ++
        (")").data) := by
  have h := (claim_C8_amended [((("w.log").data), extractMetrics (("").data))]).2.1
    0 ((("w.log").data), extractMetrics (("").data)) (by decide)
  rw [h]
  decide

/-- The first row of a table whose only row fails is printed with leading
number 0, and in a two-row table whose second row is the only success, that
line is printed with leading number 2 although it is the first success:
the printed number is the row index, not a 1-based running success
counter. -/
theorem claim_C8_counterexample :
    correctly_ex (buildStats [((("a.log").data), ("").data),
        ((("b.log").data), ("Program exit with code: 0 (OK)").data)]) = 1 ∧
      ((consoleLines (buildStats [((("a.log").data), ("").data),
          ((("b.log").data),
            ("Program exit with code: 0 (OK)").data)])).getD 1 []).take 4
        = ("   2").data ∧
      ((consoleLines (buildStats
          [((("a.log").data), ("").data)])).getD 0 []).take 4
        = ("   0").data := by
  refine ⟨by decide, by decide, by decide⟩

/-- C9: every CSV data row starts with the log filename with exactly its
last four characters removed; the header is the fixed 15-column string;
the IPC field carries exactly two digits after its decimal point; every
other numeric field is the plain decimal rendering of its integer value. -/
theorem claim_C9 (stats : Table) (b : List Char) (r : MetricSet) :
    (csvLines stats).headD []
      = ("Benchmark,Status,Instructions,Cycles,IPC,Jumps,Branches,Branch/Jump Instructions,Loads,Stores,Load/Store Instructions,Instruction fetches,Write Requests,Read Requests,Memory Requests").data ∧
    (csvLines stats).length = stats.length + 1 ∧
    csvRow b r
      = b.take (b.length - 4) ++ (",").data ++ pyBoolStr r.status ++ (",").data ++
        intToChars r.instructions ++ (",").data ++ intToChars r.cycles ++ (",").data ++
        formatFixed2 r.ipc ++ (",").data ++ intToChars r.jumps ++ (",").data ++
        intToChars r.branches ++ (",").data ++ intToChars r.branch_jump ++ (",").data ++
        intToChars r.loads ++ (",").data ++ intToChars r.stores ++ (",").data ++
        intToChars r.load_store ++ (",").data ++ intToChars r.instr_fetches ++ (",").data ++
        intToChars r.read_req ++ (",").data ++ intToChars r.write_req ++ (",").data ++
        intToChars r.memory_req ∧
    (∃ w d1 d2, formatFixed2 r.ipc = w ++ ['.', d1, d2] ∧
      d1.isDigit = true ∧ d2.isDigit = true ∧ ∀ c ∈ w, c ≠ '.') ∧
    (∀ v : Int, intVal (intToChars v) = v ∧ ∀ c ∈ intToChars v, c ≠ '.') := by
  refine ⟨rfl, by simp [csvLines], ?_, formatFixed2_decomp r.ipc, ?_⟩
  · unfold csvRow
    rw [pySlice_zero_neg_four]
  · intro v
    exact ⟨intVal_intToChars v, fun c hc => intToChars_no_dot hc⟩

theorem claim_C9_witness :
    (csvLines []).headD []
      = ("Benchmark,Status,Instructions,Cycles,IPC,Jumps,Branches,Branch/Jump Instructions,Loads,Stores,Load/Store Instructions,Instruction fetches,Write Requests,Read Requests,Memory Requests").data ∧
    intVal (intToChars 1234) = 1234 := by
  have h := claim_C9 [] (("w.log").data) (extractMetrics (("").data))
  exact ⟨h.1, (h.2.2.2.2 1234).1⟩

end ParseBenchmarks
